import Mathlib

/-!
Blacklist service (`black_list.go`)

A shallow embedding of the handlers of the blacklist service and the
properties of its block-set store.

* A Go `map[string]bool` is a finite map from strings to booleans
  (`Finmap`): no key occurs twice, iteration order is not part of the value,
  and two maps with the same entries are equal.
* The process-wide `store` becomes an explicit `BlacklistStore` value that
  every handler receives and returns next to its HTTP response.
* The JSON decoders and `http.Get` are library code: a handler receives the
  outcome of decoding its request body (`Except String _`), and `initHandler`
  receives the network as a function from the URL to the outcome of the fetch.
* `authHandler`, `listHandler` and `updateHandler` touch the store only while
  they hold the lock, so each is a function of the store it finds.
  `initHandler` reads the two map lengths after `store.Unlock()`: what other
  goroutines do to the store before each of these reads is a parameter.
* The interleaving of block checks with a full replace is a small-step
  system over the same store, with one step per access to the shared store
  and the `sync.RWMutex` exclusion rule as the enabling condition of the lock
  steps.
-/

namespace BlackList

/-! ## Go maps -/

/-- A Go `map[string]bool`. -/
abbrev GoMap := Finmap (fun _ : String => Bool)

namespace GoMap

/-- The Go expression `make(map[string]bool)`: a fresh empty map. -/
def make : GoMap := ∅

/-- The Go expression `m[k]`: the stored value, or the zero value `false`
when the key is absent. -/
def index (m : GoMap) (k : String) : Bool := (m.lookup k).getD false

/-- The Go statement `m[k] = v`. -/
def assign (m : GoMap) (k : String) (v : Bool) : GoMap := m.insert k v

/-- The Go statement `delete(m, k)`; deleting an absent key does nothing. -/
def delete (m : GoMap) (k : String) : GoMap := m.erase k

/-- The Go expression `len(m)`: the number of keys of the map. -/
def len (m : GoMap) : Nat := m.keys.card

/-- The keys visited by `for k := range m`, each exactly once, in an order
that Go leaves unspecified: a multiset. -/
def range (m : GoMap) : Multiset String := m.keys.val

/-- The loop `for _, x := range xs { m[x] = true }`. -/
def assignAll (m : GoMap) (xs : List String) : GoMap :=
  xs.foldl (fun acc x => acc.assign x true) m

/-- The loop `for _, x := range xs { delete(m, x) }`. -/
def deleteAll (m : GoMap) (xs : List String) : GoMap :=
  xs.foldl (fun acc x => acc.delete x) m

end GoMap

/-! ## Data model -/

/-- The struct `BlacklistStore` (its embedded `sync.RWMutex` is not
modelled). -/
structure BlacklistStore where
  IPs : GoMap
  Wallets : GoMap
deriving DecidableEq

/-- The package variable `store` as it is when the process starts. -/
def store : BlacklistStore := ⟨GoMap.make, GoMap.make⟩

/-- The struct `UpdateRequest`; a field missing from the JSON body has its
zero value (`""`, respectively the empty list). -/
structure UpdateRequest where
  Mode : String
  IPs : List String
  Wallets : List String
deriving DecidableEq

/-- The anonymous request struct of `initHandler`. -/
structure InitRequest where
  URL : String
deriving DecidableEq

/-- The anonymous struct `data` that `initHandler` decodes the remote body
into. -/
structure RemoteData where
  IPs : List String
  Wallets : List String
deriving DecidableEq

/-- What `http.Get` hands back when it returns no error: the status code of
the remote answer and the outcome of decoding its body into `RemoteData`.
A status outside 2xx is not an error of `http.Get`. -/
structure RemoteResponse where
  StatusCode : Nat
  Body : Except String RemoteData

/-- A value stored in an `interface{}` by the JSON decoder; `null` is the nil
interface. Only a string carries data the handlers read. -/
inductive JsonValue
  | null
  | bool (b : Bool)
  | number
  | string (s : String)
  | array
  | object
deriving DecidableEq

/-- The type assertion `v.(string)` in its two-result form. -/
def JsonValue.assertString : JsonValue → String × Bool
  | .string s => (s, true)
  | _ => ("", false)

/-- A decoded `map[string]interface{}`. -/
abbrev JsonObject := Finmap (fun _ : String => JsonValue)

/-- What a handler writes as the body of its answer. -/
inductive Body
  /-- Written by `http.Error(w, msg, code)`. -/
  | error (msg : String)
  /-- Written by `w.Write([]byte(text))`. -/
  | raw (text : String)
  /-- The object with the keys `ips` and `wallets` encoded by `listHandler`. -/
  | listing (ips wallets : Multiset String)
  /-- The object with the keys `success`, `ips_count`, `wallets_count`. -/
  | counts (success : Bool) (ips_count wallets_count : Nat)
deriving DecidableEq

/-- The status code and body of an HTTP answer. -/
structure Response where
  status : Nat
  body : Body
deriving DecidableEq

/-! ## Handlers -/

/-- Line 42 of `authHandler`, the block decision:
`store.IPs[ip] || (wallet != "" && store.Wallets[wallet])`. -/
def blocked (st : BlacklistStore) (ip wallet : String) : Bool :=
  st.IPs.index ip || (wallet != "" && st.Wallets.index wallet)

/-- The wallet that `authHandler` extracts from the decoded body:
`wallet, _ := datamap["wallet"].(string)`. -/
def walletOf (datamap : JsonObject) : String :=
  (((datamap.lookup "wallet").getD JsonValue.null).assertString).1

/-- The handler `authHandler`; `ip` is the value of the header `X-Real-Ip`
and `body` the outcome of decoding the request body. -/
def authHandler (st : BlacklistStore) (ip : String) (body : Except String JsonObject) :
    Response × BlacklistStore :=
  match body with
  | .error err => (⟨400, .error err⟩, st)
  | .ok datamap =>
    let wallet := walletOf datamap
    if blocked st ip wallet then
      (⟨403, .raw "\x7b\"auth\":false\x7d"⟩, st)
    else
      (⟨200, .raw "\x7b\"auth\":true\x7d"⟩, st)

/-- The handler `listHandler`. -/
def listHandler (st : BlacklistStore) : Response × BlacklistStore :=
  let ips := st.IPs.range
  let wallets := st.Wallets.range
  (⟨200, .listing ips wallets⟩, st)

/-- The handler `updateHandler`; `body` is the outcome of decoding the
request body into an `UpdateRequest`. -/
def updateHandler (st : BlacklistStore) (body : Except String UpdateRequest) :
    Response × BlacklistStore :=
  match body with
  | .error err => (⟨400, .error err⟩, st)
  | .ok req =>
    let st1 : BlacklistStore :=
      if req.Mode = "full" then
        let s0 : BlacklistStore := ⟨GoMap.make, GoMap.make⟩
        let s1 : BlacklistStore := ⟨s0.IPs.assignAll req.IPs, s0.Wallets⟩
        ⟨s1.IPs, s1.Wallets.assignAll req.Wallets⟩
      else if req.Mode = "add" then
        let s1 : BlacklistStore := ⟨st.IPs.assignAll req.IPs, st.Wallets⟩
        ⟨s1.IPs, s1.Wallets.assignAll req.Wallets⟩
      else if req.Mode = "remove" then
        let s1 : BlacklistStore := ⟨st.IPs.deleteAll req.IPs, st.Wallets⟩
        ⟨s1.IPs, s1.Wallets.deleteAll req.Wallets⟩
      else st
    (⟨200, .counts true st1.IPs.len st1.Wallets.len⟩, st1)

/-- What the other goroutines do to the shared store while a handler that
holds no lock goes from one statement to the next; `id` when nothing else
runs in between. -/
abbrev Interference := BlacklistStore → BlacklistStore

/-- The handler `initHandler`; `httpGet` is the network as `http.Get` sees
it and `body` the outcome of decoding the request body. The status code of
the remote answer is never read. The handler calls `store.Unlock()` (line
158) before it reads `len(store.IPs)` (line 163) and `len(store.Wallets)`
(line 164) from the shared variable: `afterUnlock` is what happens to the
store between the unlock and the first read, `betweenReads` what happens
between the two reads. The store returned is the one the handler itself
leaves, at `store.Unlock()`. -/
def initHandler (httpGet : String → Except String RemoteResponse)
    (afterUnlock betweenReads : Interference) (st : BlacklistStore)
    (body : Except String InitRequest) : Response × BlacklistStore :=
  match body with
  | .error err => (⟨400, .error err⟩, st)
  | .ok req =>
    match httpGet req.URL with
    | .error err => (⟨500, .error err⟩, st)
    | .ok resp =>
      match resp.Body with
      | .error err => (⟨500, .error err⟩, st)
      | .ok data =>
        let s0 : BlacklistStore := ⟨GoMap.make, GoMap.make⟩
        let s1 : BlacklistStore := ⟨s0.IPs.assignAll data.IPs, s0.Wallets⟩
        let s2 : BlacklistStore := ⟨s1.IPs, s1.Wallets.assignAll data.Wallets⟩
        let seen163 : BlacklistStore := afterUnlock s2
        let ips_count := seen163.IPs.len
        let seen164 : BlacklistStore := betweenReads seen163
        let wallets_count := seen164.Wallets.len
        (⟨200, .counts true ips_count wallets_count⟩, s2)

/-! ## Reachable stores -/

/-- Every value stored in the map is `true`: the map is used as a set. -/
def GoMap.AllTrue (m : GoMap) : Prop := ∀ k v, m.lookup k = some v → v = true

/-- Both maps of the store hold only `true`. -/
def BlacklistStore.SetLike (st : BlacklistStore) : Prop :=
  st.IPs.AllTrue ∧ st.Wallets.AllTrue

/-- The stores the service can be in: the initial one, and what any handler
leaves behind from a reachable one. -/
inductive Reachable : BlacklistStore → Prop
  | start : Reachable store
  | auth {st : BlacklistStore} (ip : String) (body : Except String JsonObject) :
      Reachable st → Reachable (authHandler st ip body).2
  | list {st : BlacklistStore} : Reachable st → Reachable (listHandler st).2
  | update {st : BlacklistStore} (body : Except String UpdateRequest) :
      Reachable st → Reachable (updateHandler st body).2
  | init {st : BlacklistStore} (httpGet : String → Except String RemoteResponse)
      (afterUnlock betweenReads : Interference) (body : Except String InitRequest) :
      Reachable st → Reachable (initHandler httpGet afterUnlock betweenReads st body).2

/-! ## Block checks interleaved with a full replace

One goroutine runs the critical section of a full replace (lines 86-98 of
`updateHandler` in mode `full`, the same statements as lines 149-158 of
`initHandler`), any number of goroutines run the critical section of
`authHandler` (lines 41-43). Each access to the shared store or to the lock
is one step; a scheduler picks the goroutine that moves next. -/

/-- Where a goroutine stands in lines 41-43 of `authHandler`, with what it
has read from the shared store so far. -/
inductive CheckPc
  /-- Before `store.RLock()`. -/
  | start
  /-- Holds the read lock, has read nothing yet. -/
  | locked
  /-- Has evaluated `store.IPs[ip]` on the map `seenIPs`, found `false`, and
  `wallet != ""`: it goes on to `store.Wallets[wallet]`. -/
  | readIPs (seenIPs : GoMap)
  /-- Has computed `blocked`, from the maps it read; still holds the read
  lock. The wallet map is not read when `||` or `&&` short-circuits. -/
  | decided (seenIPs : GoMap) (seenWallets : Option GoMap) (blocked : Bool)
  /-- After `store.RUnlock()`. -/
  | finished (seenIPs : GoMap) (seenWallets : Option GoMap) (blocked : Bool)
deriving DecidableEq

/-- A goroutine running one block check for `(ip, wallet)`. -/
structure Check where
  ip : String
  wallet : String
  pc : CheckPc
deriving DecidableEq

/-- Whether the check holds the read lock. -/
def Check.holds (c : Check) : Bool :=
  match c.pc with
  | .locked => true
  | .readIPs _ => true
  | .decided _ _ _ => true
  | _ => false

/-- Where the goroutine of the full replace stands. -/
inductive ReplacePc
  /-- Before `store.Lock()`. -/
  | start
  /-- Holds the write lock, before `store.IPs = make(map[string]bool)`. -/
  | locked
  /-- Before `store.Wallets = make(map[string]bool)`. -/
  | madeIPs
  /-- In the loop over the input ips, `rest` still to assign. -/
  | loopIPs (rest : List String)
  /-- In the loop over the input wallets, `rest` still to assign; at the end
  of it comes `store.Unlock()`. -/
  | loopWallets (rest : List String)
  /-- After `store.Unlock()`. -/
  | unlocked
deriving DecidableEq

/-- The shared store, the state of its `sync.RWMutex` (whether the write lock
is held, how many read locks are held), and the goroutines. -/
structure Sys where
  store : BlacklistStore
  writing : Bool
  readers : Nat
  replace : ReplacePc
  ips : List String
  wallets : List String
  checks : List Check
deriving DecidableEq

/-- Which goroutine the scheduler lets move. -/
inductive Action
  | replace
  | check (i : Nat)
deriving DecidableEq

/-- One step of the replacing goroutine. With `exclusion`, `store.Lock()`
waits (the step changes nothing) while the write lock or a read lock is
held, as `sync.RWMutex` has it; without, it never waits. -/
def stepReplace (exclusion : Bool) (s : Sys) : Sys :=
  match s.replace with
  | .start =>
    if exclusion && (s.writing || s.readers != 0) then s
    else { s with writing := true, replace := .locked }
  | .locked =>
    { s with store := ⟨GoMap.make, s.store.Wallets⟩, replace := .madeIPs }
  | .madeIPs =>
    { s with store := ⟨s.store.IPs, GoMap.make⟩, replace := .loopIPs s.ips }
  | .loopIPs (x :: rest) =>
    { s with store := ⟨s.store.IPs.assign x true, s.store.Wallets⟩, replace := .loopIPs rest }
  | .loopIPs [] =>
    { s with replace := .loopWallets s.wallets }
  | .loopWallets (x :: rest) =>
    { s with store := ⟨s.store.IPs, s.store.Wallets.assign x true⟩,
             replace := .loopWallets rest }
  | .loopWallets [] =>
    { s with writing := false, replace := .unlocked }
  | .unlocked => s

/-- One step of the checking goroutine number `i`. With `exclusion`,
`store.RLock()` waits (the step changes nothing) while the write lock is
held; without, it never waits. -/
def stepCheck (exclusion : Bool) (s : Sys) (i : Nat) : Sys :=
  match s.checks[i]? with
  | none => s
  | some c =>
    match c.pc with
    | .start =>
      if exclusion && s.writing then s
      else { s with readers := s.readers + 1,
                    checks := s.checks.set i ⟨c.ip, c.wallet, .locked⟩ }
    | .locked =>
      let seenIPs := s.store.IPs
      if seenIPs.index c.ip then
        { s with checks := s.checks.set i ⟨c.ip, c.wallet, .decided seenIPs none true⟩ }
      else if c.wallet != "" then
        { s with checks := s.checks.set i ⟨c.ip, c.wallet, .readIPs seenIPs⟩ }
      else
        { s with checks := s.checks.set i ⟨c.ip, c.wallet, .decided seenIPs none false⟩ }
    | .readIPs seenIPs =>
      let seenWallets := s.store.Wallets
      { s with checks := s.checks.set i ⟨c.ip, c.wallet,
          .decided seenIPs (some seenWallets) (seenWallets.index c.wallet)⟩ }
    | .decided seenIPs seenWallets b =>
      { s with readers := s.readers - 1,
               checks := s.checks.set i ⟨c.ip, c.wallet, .finished seenIPs seenWallets b⟩ }
    | .finished _ _ _ => s

/-- One step of the system. -/
def step (exclusion : Bool) (s : Sys) : Action → Sys
  | .replace => stepReplace exclusion s
  | .check i => stepCheck exclusion s i

/-- The system after the scheduler has run the given actions in order. -/
def run (exclusion : Bool) (s : Sys) (schedule : List Action) : Sys :=
  schedule.foldl (step exclusion) s

/-- The system before anything has moved: the store `old`, a free lock, a
full replace with the inputs `ips` and `wallets`, and one check for each
`(ip, wallet)` of `requests`. -/
def initSys (old : BlacklistStore) (ips wallets : List String)
    (requests : List (String × String)) : Sys :=
  { store := old, writing := false, readers := 0, replace := .start,
    ips := ips, wallets := wallets,
    checks := requests.map fun r => ⟨r.1, r.2, .start⟩ }

/-- What a check has observed agrees with the one store `st`: the IP map it
read is the IP map of `st`, the wallet map it read (if it read one) is the
wallet map of `st`, and its decision is the block decision on `st`. -/
def Check.Agrees (c : Check) (st : BlacklistStore) (seenIPs : GoMap)
    (seenWallets : Option GoMap) (b : Bool) : Prop :=
  seenIPs = st.IPs ∧ (seenWallets = none ∨ seenWallets = some st.Wallets) ∧
    b = blocked st c.ip c.wallet

/-- What holds of the replacing goroutine at each of its positions, for a
replace that starts on the store `old` and installs the store `new`. -/
def ReplaceInv (old new : BlacklistStore) (s : Sys) : Prop :=
  match s.replace with
  | .start => s.writing = false ∧ s.store = old
  | .locked => s.writing = true ∧ s.readers = 0
  | .madeIPs => s.writing = true ∧ s.readers = 0 ∧ s.store.IPs = GoMap.make
  | .loopIPs rest =>
    s.writing = true ∧ s.readers = 0 ∧ s.store.IPs.assignAll rest = new.IPs ∧
      s.store.Wallets = GoMap.make
  | .loopWallets rest =>
    s.writing = true ∧ s.readers = 0 ∧ s.store.IPs = new.IPs ∧
      s.store.Wallets.assignAll rest = new.Wallets
  | .unlocked => s.writing = false ∧ s.store = new

/-- What holds of a checking goroutine at each of its positions. -/
def CheckInv (old new : BlacklistStore) (s : Sys) (c : Check) : Prop :=
  match c.pc with
  | .start => True
  | .locked => True
  | .readIPs seenIPs =>
    seenIPs = s.store.IPs ∧ seenIPs.index c.ip = false ∧ (c.wallet != "") = true
  | .decided seenIPs seenWallets b =>
    c.Agrees old seenIPs seenWallets b ∨ c.Agrees new seenIPs seenWallets b
  | .finished seenIPs seenWallets b =>
    c.Agrees old seenIPs seenWallets b ∨ c.Agrees new seenIPs seenWallets b

/-- The invariant of the interleaved system under the lock. -/
structure Inv (old new : BlacklistStore) (ips wallets : List String) (s : Sys) : Prop where
  ips_eq : s.ips = ips
  wallets_eq : s.wallets = wallets
  readers_eq : s.readers = s.checks.countP Check.holds
  replace_inv : ReplaceInv old new s
  checks_inv : ∀ c ∈ s.checks, CheckInv old new s c

/-! ## Facts about the map loops -/

theorem GoMap.lookup_assignAll (xs : List String) (m : GoMap) (k : String) :
    (m.assignAll xs).lookup k = if k ∈ xs then some true else m.lookup k := by
  induction xs generalizing m with
  | nil => simp [GoMap.assignAll]
  | cons x xs ih =>
    have step : GoMap.assignAll m (x :: xs) = GoMap.assignAll (m.assign x true) xs := rfl
    rw [step, ih]
    by_cases hk : k ∈ xs
    · simp [hk]
    · by_cases hx : k = x
      · subst hx
        simp [hk, GoMap.assign, Finmap.lookup_insert]
      · simp [hk, hx, GoMap.assign, Finmap.lookup_insert_of_ne]

theorem GoMap.lookup_deleteAll (xs : List String) (m : GoMap) (k : String) :
    (m.deleteAll xs).lookup k = if k ∈ xs then none else m.lookup k := by
  induction xs generalizing m with
  | nil => simp [GoMap.deleteAll]
  | cons x xs ih =>
    have step : GoMap.deleteAll m (x :: xs) = GoMap.deleteAll (m.delete x) xs := rfl
    rw [step, ih]
    by_cases hk : k ∈ xs
    · simp [hk]
    · by_cases hx : k = x
      · subst hx
        simp [hk, GoMap.delete, Finmap.lookup_erase]
      · simp [hk, hx, GoMap.delete, Finmap.lookup_erase_ne hx]

theorem GoMap.mem_assignAll (xs : List String) (m : GoMap) (k : String) :
    k ∈ m.assignAll xs ↔ k ∈ xs ∨ k ∈ m := by
  rw [← Finmap.lookup_isSome, GoMap.lookup_assignAll, ← Finmap.lookup_isSome]
  by_cases hk : k ∈ xs <;> simp [hk]

theorem GoMap.mem_deleteAll (xs : List String) (m : GoMap) (k : String) :
    k ∈ m.deleteAll xs ↔ k ∉ xs ∧ k ∈ m := by
  rw [← Finmap.lookup_isSome, GoMap.lookup_deleteAll, ← Finmap.lookup_isSome]
  by_cases hk : k ∈ xs <;> simp [hk]

theorem GoMap.keys_assignAll (xs : List String) (m : GoMap) :
    (m.assignAll xs).keys = m.keys ∪ xs.toFinset := by
  ext k
  simp [Finmap.mem_keys, GoMap.mem_assignAll, or_comm]

theorem GoMap.keys_deleteAll (xs : List String) (m : GoMap) :
    (m.deleteAll xs).keys = m.keys \ xs.toFinset := by
  ext k
  simp [Finmap.mem_keys, GoMap.mem_deleteAll, and_comm]

theorem GoMap.keys_make : GoMap.make.keys = ∅ := rfl

theorem GoMap.assignAll_idem (xs : List String) (m : GoMap) :
    (m.assignAll xs).assignAll xs = m.assignAll xs := by
  apply Finmap.ext_lookup
  intro k
  rw [GoMap.lookup_assignAll xs (m.assignAll xs), GoMap.lookup_assignAll]
  by_cases hk : k ∈ xs <;> simp [hk]

theorem GoMap.deleteAll_idem (xs : List String) (m : GoMap) :
    (m.deleteAll xs).deleteAll xs = m.deleteAll xs := by
  apply Finmap.ext_lookup
  intro k
  rw [GoMap.lookup_deleteAll xs (m.deleteAll xs), GoMap.lookup_deleteAll]
  by_cases hk : k ∈ xs <;> simp [hk]

theorem GoMap.allTrue_make : GoMap.make.AllTrue := by
  intro k v h
  simp [GoMap.make, Finmap.lookup_empty] at h

theorem GoMap.allTrue_assignAll (xs : List String) (m : GoMap) (h : m.AllTrue) :
    (m.assignAll xs).AllTrue := by
  intro k v hv
  rw [GoMap.lookup_assignAll] at hv
  by_cases hk : k ∈ xs
  · simp [hk] at hv
    exact hv
  · simp [hk] at hv
    exact h k v hv

theorem GoMap.allTrue_deleteAll (xs : List String) (m : GoMap) (h : m.AllTrue) :
    (m.deleteAll xs).AllTrue := by
  intro k v hv
  rw [GoMap.lookup_deleteAll] at hv
  by_cases hk : k ∈ xs
  · simp [hk] at hv
  · simp [hk] at hv
    exact h k v hv

/-- For a map that holds only `true`, `m[k]` tests whether `k` is a key. -/
theorem GoMap.index_eq_true_iff (m : GoMap) (h : m.AllTrue) (k : String) :
    m.index k = true ↔ k ∈ m := by
  unfold GoMap.index
  constructor
  · intro hk
    cases hl : m.lookup k with
    | none => simp [hl] at hk
    | some v => exact Finmap.mem_of_lookup_eq_some hl
  · intro hk
    obtain ⟨v, hv⟩ := Finmap.mem_iff.mp hk
    have := h k v hv
    simp [hv, this]

/-- Every handler keeps the store set-like. -/
theorem setLike_updateHandler (st : BlacklistStore) (body : Except String UpdateRequest)
    (h : st.SetLike) : (updateHandler st body).2.SetLike := by
  cases body with
  | error err => exact h
  | ok req =>
    simp only [updateHandler]
    split_ifs
    · exact ⟨GoMap.allTrue_assignAll _ _ GoMap.allTrue_make,
        GoMap.allTrue_assignAll _ _ GoMap.allTrue_make⟩
    · exact ⟨GoMap.allTrue_assignAll _ _ h.1, GoMap.allTrue_assignAll _ _ h.2⟩
    · exact ⟨GoMap.allTrue_deleteAll _ _ h.1, GoMap.allTrue_deleteAll _ _ h.2⟩
    · exact h

theorem setLike_initHandler (httpGet : String → Except String RemoteResponse)
    (afterUnlock betweenReads : Interference)
    (st : BlacklistStore) (body : Except String InitRequest) (h : st.SetLike) :
    (initHandler httpGet afterUnlock betweenReads st body).2.SetLike := by
  unfold initHandler
  split
  · exact h
  · split
    · exact h
    · split
      · exact h
      · exact ⟨GoMap.allTrue_assignAll _ _ GoMap.allTrue_make,
          GoMap.allTrue_assignAll _ _ GoMap.allTrue_make⟩

theorem authHandler_store (st : BlacklistStore) (ip : String) (body : Except String JsonObject) :
    (authHandler st ip body).2 = st := by
  unfold authHandler
  split
  · rfl
  · simp only []
    split_ifs <;> rfl

/-- In every reachable store both maps hold only `true`. -/
theorem Reachable.setLike {st : BlacklistStore} (h : Reachable st) : st.SetLike := by
  induction h with
  | start => exact ⟨GoMap.allTrue_make, GoMap.allTrue_make⟩
  | auth ip body _ ih => rw [authHandler_store]; exact ih
  | list _ ih => exact ih
  | update body _ ih => exact setLike_updateHandler _ body ih
  | init httpGet afterUnlock betweenReads body _ ih =>
    exact setLike_initHandler httpGet afterUnlock betweenReads _ body ih

/-! ## The block decision (`authHandler`) -/

/-- C1: in a store whose maps are used as sets (every reachable store, see
`Reachable.setLike`), the block decision of `authHandler` is true exactly when
the ip is a key of the IP map, or the wallet is non-empty and a key of the
wallet map; the handler answers 403 with the body `auth:false` exactly when
the decision is true and 200 with `auth:true` otherwise, and it returns the
store it was given. An absent `wallet` field is the empty wallet, and every
string is the wallet of some request body. -/
theorem authHandler_decision (st : BlacklistStore) (h : st.SetLike) (ip wallet : String) :
    (blocked st ip wallet = true ↔ (ip ∈ st.IPs ∨ (wallet ≠ "" ∧ wallet ∈ st.Wallets))) ∧
    (∀ datamap : JsonObject,
      authHandler st ip (.ok datamap) =
        if blocked st ip (walletOf datamap) = true then
          (⟨403, .raw "\x7b\"auth\":false\x7d"⟩, st)
        else
          (⟨200, .raw "\x7b\"auth\":true\x7d"⟩, st)) ∧
    walletOf ∅ = "" ∧
    walletOf (Finmap.singleton "wallet" (JsonValue.string wallet)) = wallet := by
  refine ⟨?_, ?_, ?_, ?_⟩
  · unfold blocked
    rw [Bool.or_eq_true, Bool.and_eq_true, GoMap.index_eq_true_iff _ h.1,
      GoMap.index_eq_true_iff _ h.2, bne_iff_ne]
  · intro datamap
    simp only [authHandler]
  · simp [walletOf, Finmap.lookup_empty, JsonValue.assertString]
  · simp [walletOf, Finmap.lookup_singleton_eq, JsonValue.assertString]

/-- C1, at a store with one blocked ip and one blocked wallet. -/
theorem authHandler_decision_witness :
    (blocked ⟨Finmap.singleton "1.2.3.4" true, Finmap.singleton "0xDEAD" true⟩ "9.9.9.9" "0xDEAD"
        = true ↔
      ("9.9.9.9" ∈ (Finmap.singleton "1.2.3.4" true : GoMap) ∨
        ("0xDEAD" ≠ "" ∧ "0xDEAD" ∈ (Finmap.singleton "0xDEAD" true : GoMap)))) ∧
    (∀ datamap : JsonObject,
      authHandler ⟨Finmap.singleton "1.2.3.4" true, Finmap.singleton "0xDEAD" true⟩ "9.9.9.9"
          (.ok datamap) =
        if blocked ⟨Finmap.singleton "1.2.3.4" true, Finmap.singleton "0xDEAD" true⟩ "9.9.9.9"
            (walletOf datamap) = true then
          (⟨403, .raw "\x7b\"auth\":false\x7d"⟩,
            ⟨Finmap.singleton "1.2.3.4" true, Finmap.singleton "0xDEAD" true⟩)
        else
          (⟨200, .raw "\x7b\"auth\":true\x7d"⟩,
            ⟨Finmap.singleton "1.2.3.4" true, Finmap.singleton "0xDEAD" true⟩)) ∧
    walletOf ∅ = "" ∧
    walletOf (Finmap.singleton "wallet" (JsonValue.string "0xDEAD")) = "0xDEAD" :=
  authHandler_decision ⟨Finmap.singleton "1.2.3.4" true, Finmap.singleton "0xDEAD" true⟩
    ⟨by intro k v hv
        have hk : k = "1.2.3.4" := (Finmap.mem_singleton _ _ _).mp (Finmap.mem_of_lookup_eq_some hv)
        subst hk
        rw [Finmap.lookup_singleton_eq] at hv
        exact (Option.some.inj hv).symm,
     by intro k v hv
        have hk : k = "0xDEAD" := (Finmap.mem_singleton _ _ _).mp (Finmap.mem_of_lookup_eq_some hv)
        subst hk
        rw [Finmap.lookup_singleton_eq] at hv
        exact (Option.some.inj hv).symm⟩
    "9.9.9.9" "0xDEAD"

/-! ## Mutations (`updateHandler`) and listing (`listHandler`) -/

/-- C2: whatever the store held before, after `updateHandler` in mode `full`
the listing of `listHandler` holds as IPs exactly the distinct elements of the
input `ips`, each once, and as wallets exactly the distinct elements of the
input `wallets`, each once (a multiset: the order is not specified); the keys
of the new maps are exactly the elements of the inputs, so no earlier entry
survives unless it is in the new input. -/
theorem full_then_list (st : BlacklistStore) (ips wallets : List String) :
    (listHandler (updateHandler st (.ok ⟨"full", ips, wallets⟩)).2).1 =
      ⟨200, .listing (ips.dedup : List String) (wallets.dedup : List String)⟩ ∧
    (∀ x, x ∈ (updateHandler st (.ok ⟨"full", ips, wallets⟩)).2.IPs ↔ x ∈ ips) ∧
    (∀ x, x ∈ (updateHandler st (.ok ⟨"full", ips, wallets⟩)).2.Wallets ↔ x ∈ wallets) := by
  refine ⟨?_, ?_, ?_⟩
  · simp [listHandler, updateHandler, GoMap.range, GoMap.keys_assignAll, GoMap.keys_make]
  · intro x
    simp [updateHandler, GoMap.mem_assignAll, GoMap.make, Finmap.not_mem_empty]
  · intro x
    simp [updateHandler, GoMap.mem_assignAll, GoMap.make, Finmap.not_mem_empty]

/-- C3: from any store, after `add` with `ips = [s]` and no wallets the block
decision for `(s, "")` is true, and after a following `remove` with
`ips = [s]` and no wallets it is false. -/
theorem add_then_remove_ip (st : BlacklistStore) (s : String) :
    blocked (updateHandler st (.ok ⟨"add", [s], []⟩)).2 s "" = true ∧
    blocked (updateHandler (updateHandler st (.ok ⟨"add", [s], []⟩)).2
      (.ok ⟨"remove", [s], []⟩)).2 s "" = false := by
  constructor
  · simp [blocked, updateHandler, GoMap.index, GoMap.lookup_assignAll]
  · simp [blocked, updateHandler, GoMap.index, GoMap.lookup_deleteAll]

/-- C4: the `ips_count` and `wallets_count` that `updateHandler` reports are
the numbers of keys of the two maps of the store it leaves behind: for `full`
the numbers of distinct inputs, for `add` the sizes of the unions of the old
key sets with the inputs, for `remove` the sizes of the old key sets minus the
inputs. From the empty store, `add` with `ips = ["1.2.3.4"]` and no wallets
reports 1 and 0. -/
theorem updateHandler_counts (st : BlacklistStore) (ips wallets : List String) :
    (∀ req : UpdateRequest,
      (updateHandler st (.ok req)).1 =
        ⟨200, .counts true (updateHandler st (.ok req)).2.IPs.keys.card
          (updateHandler st (.ok req)).2.Wallets.keys.card⟩) ∧
    (updateHandler st (.ok ⟨"full", ips, wallets⟩)).1 =
      ⟨200, .counts true ips.toFinset.card wallets.toFinset.card⟩ ∧
    (updateHandler st (.ok ⟨"add", ips, wallets⟩)).1 =
      ⟨200, .counts true (st.IPs.keys ∪ ips.toFinset).card
        (st.Wallets.keys ∪ wallets.toFinset).card⟩ ∧
    (updateHandler st (.ok ⟨"remove", ips, wallets⟩)).1 =
      ⟨200, .counts true (st.IPs.keys \ ips.toFinset).card
        (st.Wallets.keys \ wallets.toFinset).card⟩ ∧
    (updateHandler store (.ok ⟨"add", ["1.2.3.4"], []⟩)).1 = ⟨200, .counts true 1 0⟩ := by
  refine ⟨fun req => rfl, ?_, ?_, ?_, by decide⟩
  · simp [updateHandler, GoMap.len, GoMap.keys_assignAll, GoMap.keys_make]
  · simp [updateHandler, GoMap.len, GoMap.keys_assignAll]
  · simp [updateHandler, GoMap.len, GoMap.keys_deleteAll]

/-- C5: for a mode other than `full`, `add` and `remove`, `updateHandler`
returns the store it was given and reports success with the sizes of its two
unchanged maps. -/
theorem updateHandler_unknown_mode (st : BlacklistStore) (mode : String)
    (ips wallets : List String) (hfull : mode ≠ "full") (hadd : mode ≠ "add")
    (hremove : mode ≠ "remove") :
    updateHandler st (.ok ⟨mode, ips, wallets⟩) =
      (⟨200, .counts true st.IPs.keys.card st.Wallets.keys.card⟩, st) := by
  simp [updateHandler, hfull, hadd, hremove, GoMap.len]

/-- C5, at the empty mode on a store with one blocked ip. -/
theorem updateHandler_unknown_mode_witness :
    "" ≠ "full" ∧ "" ≠ "add" ∧ "" ≠ "remove" ∧
    updateHandler ⟨Finmap.singleton "1.2.3.4" true, GoMap.make⟩
        (.ok ⟨"", ["5.6.7.8"], ["0xABC"]⟩) =
      (⟨200, .counts true (Finmap.singleton "1.2.3.4" true : GoMap).keys.card
        GoMap.make.keys.card⟩, ⟨Finmap.singleton "1.2.3.4" true, GoMap.make⟩) :=
  ⟨by decide, by decide, by decide,
    updateHandler_unknown_mode ⟨Finmap.singleton "1.2.3.4" true, GoMap.make⟩ ""
      ["5.6.7.8"] ["0xABC"] (by decide) (by decide) (by decide)⟩

/-- C6: applying `add` with the same lists twice leaves the same store as
applying it once, and so does `remove`. -/
theorem add_remove_idempotent (st : BlacklistStore) (X Y : List String) :
    (updateHandler (updateHandler st (.ok ⟨"add", X, Y⟩)).2 (.ok ⟨"add", X, Y⟩)).2 =
      (updateHandler st (.ok ⟨"add", X, Y⟩)).2 ∧
    (updateHandler (updateHandler st (.ok ⟨"remove", X, Y⟩)).2 (.ok ⟨"remove", X, Y⟩)).2 =
      (updateHandler st (.ok ⟨"remove", X, Y⟩)).2 := by
  constructor
  · simp [updateHandler, GoMap.assignAll_idem]
  · simp [updateHandler, GoMap.deleteAll_idem]


/-! ## Loading from a remote source (`initHandler`) -/

/-- The store that `initHandler` leaves after a successful fetch is the store
that `updateHandler` leaves in mode `full`, whatever the other goroutines do
after the unlock. -/
theorem initHandler_store_eq_full (httpGet : String → Except String RemoteResponse)
    (afterUnlock betweenReads : Interference)
    (st : BlacklistStore) (url : String) (code : Nat) (ips wallets : List String)
    (hfetch : httpGet url = .ok ⟨code, .ok ⟨ips, wallets⟩⟩) :
    (initHandler httpGet afterUnlock betweenReads st (.ok ⟨url⟩)).2 =
      (updateHandler st (.ok ⟨"full", ips, wallets⟩)).2 := by
  simp [initHandler, updateHandler, hfetch]

/-- When no other goroutine touches the store between the unlock and the two
reads, `initHandler` also gives the answer of mode `full`. -/
theorem initHandler_eq_full_of_quiet (httpGet : String → Except String RemoteResponse)
    (st : BlacklistStore) (url : String) (code : Nat) (ips wallets : List String)
    (hfetch : httpGet url = .ok ⟨code, .ok ⟨ips, wallets⟩⟩) :
    initHandler httpGet id id st (.ok ⟨url⟩) =
      updateHandler st (.ok ⟨"full", ips, wallets⟩) := by
  simp [initHandler, updateHandler, hfetch]

/-- C7 fails on the code: from the initial store, `initHandler` loads the
remote list `ips = ["1.1.1.1"]`; between its `store.Unlock()` and its read of
`len(store.IPs)` another request adds `2.2.2.2`. The store `initHandler` left
is the one mode `full` leaves, but it reports `ips_count` 2, where
`updateHandler` in mode `full`, which reads the lengths under the lock,
reports 1. -/
theorem initHandler_counts_after_unlock :
    initHandler (fun _ => .ok ⟨200, .ok ⟨["1.1.1.1"], []⟩⟩)
        (fun shared => (updateHandler shared (.ok ⟨"add", ["2.2.2.2"], []⟩)).2) id store
        (.ok ⟨"http://lists.example/block"⟩) =
      (⟨200, .counts true 2 0⟩, ⟨Finmap.singleton "1.1.1.1" true, GoMap.make⟩) ∧
    updateHandler store (.ok ⟨"full", ["1.1.1.1"], []⟩) =
      (⟨200, .counts true 1 0⟩, ⟨Finmap.singleton "1.1.1.1" true, GoMap.make⟩) := by
  decide

/-- C8: when the fetch fails, or the fetched body cannot be decoded,
`initHandler` answers 500 with the error text and returns the store it was
given. -/
theorem initHandler_failure (httpGet : String → Except String RemoteResponse)
    (afterUnlock betweenReads : Interference)
    (st : BlacklistStore) (url err : String)
    (hfail : httpGet url = .error err ∨ ∃ code, httpGet url = .ok ⟨code, .error err⟩) :
    initHandler httpGet afterUnlock betweenReads st (.ok ⟨url⟩) = (⟨500, .error err⟩, st) := by
  rcases hfail with h | ⟨code, h⟩ <;> simp [initHandler, h]

/-- C8, at an unreachable host, from a store with one blocked ip. -/
theorem initHandler_failure_witness :
    initHandler (fun _ => .error "no such host") id id
        ⟨Finmap.singleton "1.2.3.4" true, GoMap.make⟩ (.ok ⟨"http://bad-host.invalid"⟩) =
      (⟨500, .error "no such host"⟩, ⟨Finmap.singleton "1.2.3.4" true, GoMap.make⟩) :=
  initHandler_failure (fun _ => .error "no such host") id id
    ⟨Finmap.singleton "1.2.3.4" true, GoMap.make⟩ "http://bad-host.invalid" "no such host"
    (Or.inl rfl)

/-- C9 as stated fails: a remote answer with status 503 whose body is the
well-formed document with `ips = ["6.6.6.6"]` and no wallets is loaded. From
the initial store, with nothing else running, `initHandler` answers 200 with
the counts 1 and 0, and the store it leaves holds `6.6.6.6`, so it is not the
store it was given. -/
theorem initHandler_non2xx_counterexample :
    ¬ (200 ≤ 503 ∧ 503 < 300) ∧
    (initHandler (fun _ => .ok ⟨503, .ok ⟨["6.6.6.6"], []⟩⟩) id id store
        (.ok ⟨"http://lists.example/block"⟩)).1 = ⟨200, .counts true 1 0⟩ ∧
    (initHandler (fun _ => .ok ⟨503, .ok ⟨["6.6.6.6"], []⟩⟩) id id store
        (.ok ⟨"http://lists.example/block"⟩)).2 = ⟨Finmap.singleton "6.6.6.6" true, GoMap.make⟩ ∧
    (initHandler (fun _ => .ok ⟨503, .ok ⟨["6.6.6.6"], []⟩⟩) id id store
        (.ok ⟨"http://lists.example/block"⟩)).2 ≠ store := by
  decide

/-- C9, amended: `initHandler` does not look at the status of the remote
answer. For a status outside 2xx it answers 500 and returns the store it was
given when the body cannot be decoded; when the body decodes to
`(ips, wallets)` it answers 200 and replaces the store as mode `full` does on
`(ips, wallets)`. -/
theorem initHandler_non2xx (httpGet : String → Except String RemoteResponse)
    (afterUnlock betweenReads : Interference)
    (st : BlacklistStore) (url : String) (code : Nat) (payload : Except String RemoteData)
    (_hcode : ¬ (200 ≤ code ∧ code < 300)) (hfetch : httpGet url = .ok ⟨code, payload⟩) :
    match payload with
    | .error err =>
      initHandler httpGet afterUnlock betweenReads st (.ok ⟨url⟩) = (⟨500, .error err⟩, st)
    | .ok data =>
      (initHandler httpGet afterUnlock betweenReads st (.ok ⟨url⟩)).1.status = 200 ∧
      (initHandler httpGet afterUnlock betweenReads st (.ok ⟨url⟩)).2 =
        (updateHandler st (.ok ⟨"full", data.IPs, data.Wallets⟩)).2 := by
  cases payload with
  | error err => simp [initHandler, hfetch]
  | ok data => simp [initHandler, updateHandler, hfetch]

/-- C9 amended, at a 404 answer whose body is a JSON document without the
keys `ips` and `wallets` (it decodes to two empty lists), over a store with one
blocked ip: the answer is 200 and the store is emptied, as by mode `full` on
two empty lists. -/
theorem initHandler_non2xx_witness :
    ¬ (200 ≤ 404 ∧ 404 < 300) ∧
    (initHandler (fun _ => .ok ⟨404, .ok ⟨[], []⟩⟩) id id
        ⟨Finmap.singleton "1.2.3.4" true, GoMap.make⟩
        (.ok ⟨"http://lists.example/none"⟩)).1.status = 200 ∧
    (initHandler (fun _ => .ok ⟨404, .ok ⟨[], []⟩⟩) id id
        ⟨Finmap.singleton "1.2.3.4" true, GoMap.make⟩
        (.ok ⟨"http://lists.example/none"⟩)).2 =
      (updateHandler ⟨Finmap.singleton "1.2.3.4" true, GoMap.make⟩
        (.ok ⟨"full", [], []⟩)).2 :=
  ⟨by decide,
    initHandler_non2xx (fun _ => .ok ⟨404, .ok ⟨[], []⟩⟩) id id
      ⟨Finmap.singleton "1.2.3.4" true, GoMap.make⟩ "http://lists.example/none" 404
      (.ok ⟨[], []⟩) (by decide) rfl⟩

/-! ## Block checks interleaved with a full replace: no torn read -/

theorem CheckInv.of_store_eq {old new : BlacklistStore} {s t : Sys} {c : Check}
    (h : t.store = s.store) (hc : CheckInv old new s c) : CheckInv old new t c := by
  obtain ⟨ip, wallet, pc⟩ := c
  cases pc <;> simp only [CheckInv] at hc ⊢ <;> first | trivial | exact hc | (rw [h]; exact hc)

theorem CheckInv.of_not_holds {old new : BlacklistStore} {s t : Sys} {c : Check}
    (h : c.holds = false) (hc : CheckInv old new s c) : CheckInv old new t c := by
  obtain ⟨ip, wallet, pc⟩ := c
  cases pc <;> simp_all [CheckInv, Check.holds]

theorem Inv.no_holder {old new : BlacklistStore} {ips wallets : List String} {s : Sys}
    (h : Inv old new ips wallets s) (h0 : s.readers = 0) :
    ∀ c ∈ s.checks, c.holds = false := by
  intro c hc
  have hz := h.readers_eq
  rw [h0] at hz
  have := (List.countP_eq_zero.mp hz.symm) c hc
  simpa using this

theorem inv_stepReplace {old new : BlacklistStore} {ips wallets : List String}
    (hI : new.IPs = GoMap.make.assignAll ips) (hW : new.Wallets = GoMap.make.assignAll wallets)
    {s : Sys} (h : Inv old new ips wallets s) :
    Inv old new ips wallets (stepReplace true s) := by
  have hno := h.no_holder
  obtain ⟨hips, hwal, hread, hrep, hchk⟩ := h
  obtain ⟨store, writing, readers, replace, sips, swallets, checks⟩ := s
  simp only at hips hwal hread hchk hno
  cases replace with
  | start =>
    simp only [ReplaceInv] at hrep
    obtain ⟨hw, hs⟩ := hrep
    subst hw
    by_cases hr : readers = 0
    · subst hr
      refine ⟨hips, hwal, hread, ?_, ?_⟩
      · simp [stepReplace, ReplaceInv]
      · intro c hc
        exact CheckInv.of_store_eq rfl (hchk c hc)
    · have hstep : stepReplace true ⟨store, false, readers, .start, sips, swallets, checks⟩ =
          ⟨store, false, readers, .start, sips, swallets, checks⟩ := by
        simp [stepReplace, hr]
      rw [hstep]
      exact ⟨hips, hwal, hread, by simp [ReplaceInv, hs], hchk⟩
  | locked =>
    simp only [ReplaceInv] at hrep
    obtain ⟨hw, hr⟩ := hrep
    refine ⟨hips, hwal, hread, ?_, ?_⟩
    · simp [stepReplace, ReplaceInv, hw, hr]
    · intro c hc
      exact CheckInv.of_not_holds (hno hr c hc) (hchk c hc)
  | madeIPs =>
    simp only [ReplaceInv] at hrep
    obtain ⟨hw, hr, hm⟩ := hrep
    refine ⟨hips, hwal, hread, ?_, ?_⟩
    · simp [stepReplace, ReplaceInv, hw, hr, hm, hips, hI]
    · intro c hc
      exact CheckInv.of_not_holds (hno hr c hc) (hchk c hc)
  | loopIPs rest =>
    simp only [ReplaceInv] at hrep
    obtain ⟨hw, hr, hm, hwm⟩ := hrep
    cases rest with
    | nil =>
      refine ⟨hips, hwal, hread, ?_, ?_⟩
      · have hm2 : store.IPs = new.IPs := hm
        simp [stepReplace, ReplaceInv, hw, hr, hm2, hwm, hwal, hW]
      · intro c hc
        exact CheckInv.of_not_holds (hno hr c hc) (hchk c hc)
    | cons x rest =>
      refine ⟨hips, hwal, hread, ?_, ?_⟩
      · have hm2 : (store.IPs.assign x true).assignAll rest = new.IPs := hm
        simp [stepReplace, ReplaceInv, hw, hr, hm2, hwm]
      · intro c hc
        exact CheckInv.of_not_holds (hno hr c hc) (hchk c hc)
  | loopWallets rest =>
    simp only [ReplaceInv] at hrep
    obtain ⟨hw, hr, hm, hwm⟩ := hrep
    cases rest with
    | nil =>
      refine ⟨hips, hwal, hread, ?_, ?_⟩
      · have hwm2 : store.Wallets = new.Wallets := hwm
        obtain ⟨sI, sW⟩ := store
        obtain ⟨nI, nW⟩ := new
        simp only at hm hwm2
        simp [stepReplace, ReplaceInv, hm, hwm2]
      · intro c hc
        exact CheckInv.of_not_holds (hno hr c hc) (hchk c hc)
    | cons x rest =>
      refine ⟨hips, hwal, hread, ?_, ?_⟩
      · have hwm2 : (store.Wallets.assign x true).assignAll rest = new.Wallets := hwm
        simp [stepReplace, ReplaceInv, hw, hr, hm, hwm2]
      · intro c hc
        exact CheckInv.of_not_holds (hno hr c hc) (hchk c hc)
  | unlocked =>
    exact ⟨hips, hwal, hread, hrep, hchk⟩

theorem ReplaceInv.of_idle {old new : BlacklistStore} {s t : Sys}
    (hidle : s.writing = false) (hstore : t.store = s.store) (hw : t.writing = s.writing)
    (hpc : t.replace = s.replace) (h : ReplaceInv old new s) : ReplaceInv old new t := by
  unfold ReplaceInv at h ⊢
  rw [hpc]
  cases hrep : s.replace <;> simp only [hrep] at h ⊢ <;> simp_all

theorem ReplaceInv.idle_store {old new : BlacklistStore} {s : Sys}
    (h : ReplaceInv old new s) (hidle : s.writing = false) :
    s.store = old ∨ s.store = new := by
  unfold ReplaceInv at h
  cases hrep : s.replace <;> simp only [hrep] at h <;> simp_all

theorem Inv.quiet {old new : BlacklistStore} {ips wallets : List String} {s : Sys}
    (h : Inv old new ips wallets s) {c : Check} (hc : c ∈ s.checks) (hh : c.holds = true) :
    0 < s.readers ∧ s.writing = false := by
  have hpos : 0 < s.readers := by
    rw [h.readers_eq]
    exact List.countP_pos_iff.mpr ⟨c, hc, hh⟩
  refine ⟨hpos, ?_⟩
  have hrep := h.replace_inv
  unfold ReplaceInv at hrep
  cases hpc : s.replace <;> simp only [hpc] at hrep <;> first | exact hrep.1 | omega

theorem inv_set_check {old new : BlacklistStore} {ips wallets : List String} {s : Sys}
    (h : Inv old new ips wallets s) {i : Nat} {c d : Check} (hget : s.checks[i]? = some c)
    (hidle : s.writing = false) (r : Nat)
    (hr : r + (if c.holds = true then 1 else 0) = s.readers + (if d.holds = true then 1 else 0))
    (hd : CheckInv old new s d) :
    Inv old new ips wallets { s with readers := r, checks := s.checks.set i d } := by
  obtain ⟨hlt, hci⟩ := List.getElem?_eq_some.mp hget
  refine ⟨h.ips_eq, h.wallets_eq, ?_, ?_, ?_⟩
  · show r = (s.checks.set i d).countP Check.holds
    rw [List.countP_set Check.holds s.checks i d hlt, hci]
    have hle := List.boole_getElem_le_countP Check.holds s.checks i hlt
    rw [hci] at hle
    have hre := h.readers_eq
    omega
  · exact ReplaceInv.of_idle hidle rfl rfl rfl h.replace_inv
  · intro e he
    rcases List.mem_or_eq_of_mem_set he with hmem | heq
    · exact CheckInv.of_store_eq rfl (h.checks_inv e hmem)
    · rw [heq]
      exact CheckInv.of_store_eq rfl hd

theorem inv_stepCheck {old new : BlacklistStore} {ips wallets : List String} {s : Sys}
    (h : Inv old new ips wallets s) (i : Nat) :
    Inv old new ips wallets (stepCheck true s i) := by
  cases hget : s.checks[i]? with
  | none =>
    have hstep : stepCheck true s i = s := by simp [stepCheck, hget]
    rw [hstep]
    exact h
  | some c =>
    have hmem : c ∈ s.checks := List.getElem?_mem hget
    have hci := h.checks_inv c hmem
    obtain ⟨ip, wallet, pc⟩ := c
    cases pc with
    | start =>
      cases hw : s.writing with
      | true =>
        have hstep : stepCheck true s i = s := by simp [stepCheck, hget, hw]
        rw [hstep]
        exact h
      | false =>
        have hstep : stepCheck true s i =
            { s with readers := s.readers + 1,
                     checks := s.checks.set i ⟨ip, wallet, .locked⟩ } := by
          simp [stepCheck, hget, hw]
        rw [hstep]
        exact inv_set_check h hget hw _ (by simp [Check.holds]) (by simp [CheckInv])
    | locked =>
      obtain ⟨_, hidle⟩ := h.quiet hmem rfl
      have hst := h.replace_inv.idle_store hidle
      by_cases hidx : s.store.IPs.index ip = true
      · have hstep : stepCheck true s i =
            { s with readers := s.readers,
                     checks := s.checks.set i ⟨ip, wallet, .decided s.store.IPs none true⟩ } := by
          simp [stepCheck, hget, hidx]
        rw [hstep]
        refine inv_set_check h hget hidle _ (by simp [Check.holds]) ?_
        have key : ∀ st, s.store = st →
            Check.Agrees ⟨ip, wallet, .decided s.store.IPs none true⟩ st s.store.IPs none true := by
          intro st hst
          subst hst
          unfold Check.Agrees
          exact ⟨rfl, Or.inl rfl, by simp [blocked, hidx]⟩
        exact hst.elim (fun e => Or.inl (key old e)) (fun e => Or.inr (key new e))
      · by_cases hwl : (wallet != "") = true
        · have hstep : stepCheck true s i =
              { s with readers := s.readers,
                       checks := s.checks.set i ⟨ip, wallet, .readIPs s.store.IPs⟩ } := by
            simp only [stepCheck, hget, hidx, hwl]
            simp
          rw [hstep]
          refine inv_set_check h hget hidle _ (by simp [Check.holds]) ?_
          have hidx2 : s.store.IPs.index ip = false := by simpa using hidx
          exact ⟨rfl, hidx2, hwl⟩
        · have hstep : stepCheck true s i =
              { s with readers := s.readers,
                       checks := s.checks.set i
                         ⟨ip, wallet, .decided s.store.IPs none false⟩ } := by
            simp only [stepCheck, hget, hidx, hwl]
            simp
          rw [hstep]
          refine inv_set_check h hget hidle _ (by simp [Check.holds]) ?_
          have hidx2 : s.store.IPs.index ip = false := by simpa using hidx
          have hwl2 : (wallet != "") = false := by simpa using hwl
          have key : ∀ st, s.store = st →
              Check.Agrees ⟨ip, wallet, .decided s.store.IPs none false⟩ st
                s.store.IPs none false := by
            intro st hst
            subst hst
            unfold Check.Agrees
            exact ⟨rfl, Or.inl rfl, by simp only [blocked, hidx2, hwl2]; rfl⟩
          exact hst.elim (fun e => Or.inl (key old e)) (fun e => Or.inr (key new e))
    | readIPs seenIPs =>
      obtain ⟨_, hidle⟩ := h.quiet hmem rfl
      have hst := h.replace_inv.idle_store hidle
      simp only [CheckInv] at hci
      obtain ⟨hseen, hidx, hwl⟩ := hci
      have hstep : stepCheck true s i =
          { s with readers := s.readers,
                   checks := s.checks.set i ⟨ip, wallet,
                     .decided seenIPs (some s.store.Wallets) (s.store.Wallets.index wallet)⟩ } := by
        simp [stepCheck, hget]
      rw [hstep]
      refine inv_set_check h hget hidle _ (by simp [Check.holds]) ?_
      rw [hseen] at hidx
      have key : ∀ st, s.store = st →
          Check.Agrees
            ⟨ip, wallet,
              .decided seenIPs (some s.store.Wallets) (s.store.Wallets.index wallet)⟩ st
            seenIPs (some s.store.Wallets) (s.store.Wallets.index wallet) := by
        intro st hst
        subst hst
        unfold Check.Agrees
        exact ⟨hseen, Or.inr rfl, by simp only [blocked, hidx, hwl]; rfl⟩
      exact hst.elim (fun e => Or.inl (key old e)) (fun e => Or.inr (key new e))
    | decided seenIPs seenWallets b =>
      obtain ⟨hpos, hidle⟩ := h.quiet hmem rfl
      have hstep : stepCheck true s i =
          { s with readers := s.readers - 1,
                   checks := s.checks.set i ⟨ip, wallet, .finished seenIPs seenWallets b⟩ } := by
        simp [stepCheck, hget]
      rw [hstep]
      refine inv_set_check h hget hidle _ ?_ ?_
      · simp [Check.holds]
        omega
      · exact hci
    | finished seenIPs seenWallets b =>
      have hstep : stepCheck true s i = s := by simp [stepCheck, hget]
      rw [hstep]
      exact h

theorem inv_initSys (old new : BlacklistStore) (ips wallets : List String)
    (requests : List (String × String)) :
    Inv old new ips wallets (initSys old ips wallets requests) := by
  refine ⟨rfl, rfl, ?_, ?_, ?_⟩
  · show 0 = (requests.map fun r => (⟨r.1, r.2, .start⟩ : Check)).countP Check.holds
    symm
    rw [List.countP_eq_zero]
    intro c hc
    obtain ⟨r, _, hr⟩ := List.mem_map.mp hc
    rw [← hr]
    simp [Check.holds]
  · exact ⟨rfl, rfl⟩
  · intro c hc
    obtain ⟨r, _, hr⟩ := List.mem_map.mp hc
    rw [← hr]
    trivial

theorem inv_step {old new : BlacklistStore} {ips wallets : List String}
    (hI : new.IPs = GoMap.make.assignAll ips) (hW : new.Wallets = GoMap.make.assignAll wallets)
    {s : Sys} (h : Inv old new ips wallets s) (a : Action) :
    Inv old new ips wallets (step true s a) := by
  cases a with
  | replace => exact inv_stepReplace hI hW h
  | check i => exact inv_stepCheck h i

theorem inv_run (old new : BlacklistStore) {ips wallets : List String}
    (hI : new.IPs = GoMap.make.assignAll ips) (hW : new.Wallets = GoMap.make.assignAll wallets)
    (schedule : List Action) {s : Sys} (h : Inv old new ips wallets s) :
    Inv old new ips wallets (run true s schedule) := by
  induction schedule generalizing s with
  | nil => exact h
  | cons a rest ih => exact ih (inv_step hI hW h a)

/-- C10: one goroutine runs the critical section of a full replace with the
inputs `ips` and `wallets` (`updateHandler` in mode `full`; `initHandler` runs
the same statements), any number of goroutines run block checks, and the
scheduler interleaves their steps in any order under the `sync.RWMutex`
exclusion. Whatever a check has computed, the IP map it read, the wallet map
it read (when it read one) and its decision all come from the store before
the replace, or all come from the store that the replace installs: never the
IP map of one with the wallet map of the other. -/
theorem no_torn_read (old : BlacklistStore) (ips wallets : List String)
    (requests : List (String × String)) (schedule : List Action) (c : Check)
    (seenIPs : GoMap) (seenWallets : Option GoMap) (b : Bool)
    (hc : c ∈ (run true (initSys old ips wallets requests) schedule).checks)
    (hpc : c.pc = .decided seenIPs seenWallets b ∨ c.pc = .finished seenIPs seenWallets b) :
    (seenIPs = old.IPs ∧ (seenWallets = none ∨ seenWallets = some old.Wallets) ∧
      b = blocked old c.ip c.wallet) ∨
    (seenIPs = (updateHandler old (.ok ⟨"full", ips, wallets⟩)).2.IPs ∧
      (seenWallets = none ∨
        seenWallets = some (updateHandler old (.ok ⟨"full", ips, wallets⟩)).2.Wallets) ∧
      b = blocked (updateHandler old (.ok ⟨"full", ips, wallets⟩)).2 c.ip c.wallet) := by
  have hinv := inv_run old (updateHandler old (.ok ⟨"full", ips, wallets⟩)).2
    (by simp [updateHandler]) (by simp [updateHandler]) schedule
    (inv_initSys old _ ips wallets requests)
  have hci := hinv.checks_inv c hc
  unfold CheckInv at hci
  rcases hpc with hpc | hpc <;> rw [hpc] at hci <;> exact hci

/-- C10, at a store with one blocked ip and one blocked wallet that is
replaced by another ip and another wallet while two checks run. The first
check takes the read lock first, the replace waits for it at `store.Lock()`,
and the check reads both maps of the old store; the second check waits at
`store.RLock()` until the replace is done. -/
theorem no_torn_read_witness :
    (⟨"9.9.9.9", "0xOLD",
        .finished (Finmap.singleton "1.1.1.1" true) (some (Finmap.singleton "0xOLD" true))
          true⟩ : Check) ∈ (run true
        (initSys ⟨Finmap.singleton "1.1.1.1" true, Finmap.singleton "0xOLD" true⟩
          ["2.2.2.2"] ["0xNEW"] [("9.9.9.9", "0xOLD"), ("2.2.2.2", "")])
        [.check 0, .replace, .check 0, .replace, .check 0, .replace, .check 0, .replace,
          .check 1, .replace, .replace, .replace, .replace, .replace, .replace, .check 1,
          .check 1]).checks ∧
    (((Finmap.singleton "1.1.1.1" true : GoMap) =
          (⟨Finmap.singleton "1.1.1.1" true, Finmap.singleton "0xOLD" true⟩ : BlacklistStore).IPs ∧
        ((some (Finmap.singleton "0xOLD" true) : Option GoMap) = none ∨
          (some (Finmap.singleton "0xOLD" true) : Option GoMap) =
            some (⟨Finmap.singleton "1.1.1.1" true, Finmap.singleton "0xOLD" true⟩ : BlacklistStore).Wallets) ∧
        true = blocked ⟨Finmap.singleton "1.1.1.1" true, Finmap.singleton "0xOLD" true⟩
          "9.9.9.9" "0xOLD") ∨
      ((Finmap.singleton "1.1.1.1" true : GoMap) =
          (updateHandler ⟨Finmap.singleton "1.1.1.1" true, Finmap.singleton "0xOLD" true⟩
          (.ok ⟨"full", ["2.2.2.2"], ["0xNEW"]⟩)).2.IPs ∧
        ((some (Finmap.singleton "0xOLD" true) : Option GoMap) = none ∨
          (some (Finmap.singleton "0xOLD" true) : Option GoMap) =
            some (updateHandler ⟨Finmap.singleton "1.1.1.1" true, Finmap.singleton "0xOLD" true⟩
          (.ok ⟨"full", ["2.2.2.2"], ["0xNEW"]⟩)).2.Wallets) ∧
        true = blocked (updateHandler ⟨Finmap.singleton "1.1.1.1" true, Finmap.singleton "0xOLD" true⟩
          (.ok ⟨"full", ["2.2.2.2"], ["0xNEW"]⟩)).2
          "9.9.9.9" "0xOLD")) :=
  ⟨by decide,
    no_torn_read ⟨Finmap.singleton "1.1.1.1" true, Finmap.singleton "0xOLD" true⟩
      ["2.2.2.2"] ["0xNEW"] [("9.9.9.9", "0xOLD"), ("2.2.2.2", "")]
      [.check 0, .replace, .check 0, .replace, .check 0, .replace, .check 0, .replace,
          .check 1, .replace, .replace, .replace, .replace, .replace, .replace, .check 1,
          .check 1]
      (⟨"9.9.9.9", "0xOLD",
        .finished (Finmap.singleton "1.1.1.1" true) (some (Finmap.singleton "0xOLD" true))
          true⟩ : Check)
      (Finmap.singleton "1.1.1.1" true) (some (Finmap.singleton "0xOLD" true)) true
      (by decide) (Or.inr rfl)⟩

/-- Without the exclusion of the lock a torn read happens. The store holds
the wallet `0xBAD`, the replace installs the ip `6.6.6.6` and no wallet, and
the check is for `(6.6.6.6, 0xBAD)`, which is blocked before the replace and
blocked after it. The check reads the IP map before the replace and the
wallet map after it, and decides that the request is not blocked. -/
theorem torn_read_without_exclusion :
    (run false (initSys ⟨GoMap.make, Finmap.singleton "0xBAD" true⟩ ["6.6.6.6"] []
        [("6.6.6.6", "0xBAD")])
      [.check 0, .check 0, .replace, .replace, .replace, .replace, .replace, .replace,
        .check 0]).checks =
      [⟨"6.6.6.6", "0xBAD", .decided GoMap.make (some GoMap.make) false⟩] ∧
    blocked ⟨GoMap.make, Finmap.singleton "0xBAD" true⟩ "6.6.6.6" "0xBAD" = true ∧
    blocked (updateHandler ⟨GoMap.make, Finmap.singleton "0xBAD" true⟩
      (.ok ⟨"full", ["6.6.6.6"], []⟩)).2 "6.6.6.6" "0xBAD" = true := by
  decide

end BlackList
